import Mathlib

/-!
Shallow embedding of the `icloud_reingest` repository's decision logic
(`src/evaluate_video_files.py`, `src/evaluate_image_files.py`,
`src/evaluate_duplicates.py`, `src/utils.py`).

External collaborators (the filesystem walker, `ffprobe`, the EXIF reader,
`os.path.getsize`, `os.path.getmtime`, the perceptual hasher) are modelled as
inputs already supplied to the pure classification functions: a probe result is
`Option ProbeInfo`, a file's local modification-time year and ISO-8601 UTC
mtime string are fields of the per-file context, `getsize` is a fallible
`String → Option Nat`, and the perceptual hash of a file is an
`Option (List Bool)` bit fingerprint (the source stores the hash as a hex
string and converts it back to bits before taking Hamming distances; we keep
the bit fingerprint directly).

Python truthiness of optional strings (`if not creation_time`, `if date_taken`,
`if path_year`, `if big['phash'] and small['phash']`) is modelled by
`pyTruthy`: `None` and the empty string are falsy.
-/

namespace ICloudReingest

/-- Truthiness of a Python value that is either `None` or a string: `None` and
`""` are falsy, every other string is truthy. -/
def pyTruthy : Option String → Bool
  | none => false
  | some s => !s.isEmpty

/-- Python `a or b` for `a` an optional string and `b` a string: yields `b`
when `a` is `None` or empty. -/
def pyOrStr : Option String → String → String
  | none, b => b
  | some s, b => if s.isEmpty then b else s

/-- Python's `str.lower()` at the character level (ASCII case mapping; agrees
with the source on the ASCII metadata and path strings involved). -/
def strLower (s : String) : String :=
  String.mk (s.toList.map Char.toLower)

/-- Contiguous-sublist test on character lists: true iff `needle` occurs as a
contiguous run inside `hay`. -/
def listContainsSub (needle : List Char) : List Char → Bool
  | [] => needle.isEmpty
  | c :: t => needle.isPrefixOf (c :: t) || listContainsSub needle t

/-- Substring test: Python's `needle in hay` on strings, at the level of
character lists. -/
def strContains (hay needle : String) : Bool :=
  listContainsSub needle.toList hay.toList

/-- Embeds `utils.should_skip_by_partial_match`: true iff some skiplist
keyword, lower-cased, occurs as a substring of the lower-cased path. -/
def should_skip_by_partial_match (path : String) (skiplist : List String) : Bool :=
  skiplist.any fun keyword => strContains (strLower path) (strLower keyword)

/-- Splitting a character list at every separator, keeping empty segments,
as `re.split` with a single-character class does. -/
def splitCharsAux (p : Char → Bool) : List Char → List Char → List (List Char)
  | [], acc => [acc.reverse]
  | c :: t, acc =>
    if p c then acc.reverse :: splitCharsAux p t [] else splitCharsAux p t (c :: acc)

/-- Embeds `re.split(r'[\\/]', path)`: the path's segments, split at every
forward or backward slash. -/
def splitPathParts (path : String) : List String :=
  (splitCharsAux (fun c => c = '/' || c = '\\') path.toList []).map String.mk

/-- Embeds `re.match(r'(20\d{2})', part)`: the match is anchored at the start
of the segment, so this yields the segment's first four characters exactly
when they are `2`, `0` and two further decimal digits. -/
def yearPrefix (part : String) : Option String :=
  match part.toList with
  | '2' :: '0' :: c :: d :: _ =>
    if c.isDigit && d.isDigit then some (String.mk ['2', '0', c, d]) else none
  | _ => none

/-- Embeds `utils.extract_year_from_path`: the first path segment whose start
matches `20\d{2}`, returning the matched four characters. -/
def extract_year_from_path (path : String) : Option String :=
  (splitPathParts path).findSome? yearPrefix

/-- Raw technical metadata of one probed stream, as read out of the `ffprobe`
JSON by `evaluate_video_files.py`. Absent dictionary keys are `none`. The
`tags` mapping keeps the dictionary's insertion order as an association
list. -/
structure StreamInfo where
  codec_type : Option String := none
  codec_name : Option String := none
  codec_tag_string : Option String := none
  pix_fmt : Option String := none
  color_transfer : Option String := none
  color_trc : Option String := none
  color_primaries : Option String := none
  channels : Option Nat := none
  tags : List (String × String) := []
  deriving Repr, DecidableEq

/-- Embeds `evaluate_video_files.is_hdr_stream`. The transfer characteristic
is `color_transfer`, falling back (Python `or`, so also on an empty string) to
`color_trc` and then to the empty string. -/
def is_hdr_stream (s : StreamInfo) : Bool :=
  let trc := strLower (pyOrStr s.color_transfer (pyOrStr s.color_trc ""))
  let primaries := strLower (pyOrStr s.color_primaries "")
  let pix_fmt := strLower (pyOrStr s.pix_fmt "")
  if trc = "smpte2084" || trc = "arib-std-b67" then true
  else if strContains pix_fmt "dovi" then true
  else if strContains pix_fmt "10" || strContains pix_fmt "12" || strContains pix_fmt "16" then
    primaries = "bt2020" || primaries = "bt2020nc"
  else false

/-- Extension of a file name as computed by
`os.path.splitext(file_name)[1][1:].lower()`: the characters after the last
dot, provided some character before that dot is not itself a dot (leading dots
never start an extension), lower-cased; `""` otherwise. -/
def extOf (name : String) : String :=
  let r := name.toList.reverse
  let revExt := r.takeWhile fun c => c ≠ '.'
  let rest := r.dropWhile fun c => c ≠ '.'
  match rest with
  | [] => ""
  | _ :: before =>
    if before.any (fun c => c ≠ '.') then strLower (String.mk revExt.reverse) else ""

/-- Checked per video stream:
`stream.get('codec_name') == 'hevc' and stream.get('codec_tag_string', '').lower() == 'hvc1'`. -/
def isHvc1 (s : StreamInfo) : Bool :=
  s.codec_name == some "hevc" && strLower (s.codec_tag_string.getD "") == "hvc1"

/-- Mutable state of the per-file stream loop in
`evaluate_video_files.crawl_and_evaluate` (lines 245-279), plus the
container flag and reason computed around it. -/
structure Flags where
  video_codec_needed : Bool := true
  audio_codec_needed : Bool := true
  container_needed : Bool
  audio_channels : Nat := 2
  hdr_to_sdr_needed : Bool := false
  video_reason : Option String := none
  audio_reason : Option String := none
  container_reason : Option String := none
  hdr_reason : Option String := none
  deriving Repr, DecidableEq

/-- Initial loop state: both codec flags default to needing a re-encode, the
container flag is `ext != 'mov'`, channels default to 2. -/
def initFlags (ext : String) : Flags :=
  { container_needed := ext != "mov" }

/-- Body of `for stream in info.get('streams', [])` in `crawl_and_evaluate`:
one stream's effect on the loop state. -/
def processStream (f : Flags) (s : StreamInfo) : Flags :=
  let f1 :=
    if s.codec_type == some "video" then
      if isHvc1 s && !is_hdr_stream s then
        { f with video_codec_needed := false }
      else
        let fa := { f with video_codec_needed := true }
        let fb := if !isHvc1 s then { fa with video_reason := some "video codec" } else fa
        if is_hdr_stream s then
          { fb with hdr_to_sdr_needed := true, hdr_reason := some "HDR to SDR" }
        else fb
    else f
  if s.codec_type == some "audio" then
    let f2 :=
      if s.codec_name == some "aac" then { f1 with audio_codec_needed := false }
      else { f1 with audio_reason := some "audio codec" }
    { f2 with audio_channels := s.channels.getD 2 }
  else f1

/-- Result of the probe (`ffprobe` JSON): the streams in order, and the
`format` section's tags. -/
structure ProbeInfo where
  format_tags : List (String × String) := []
  streams : List StreamInfo := []
  deriving Repr, DecidableEq

/-- One tag dictionary's scan inside `get_creation_time_from_metadata`: the
first value whose key, lower-cased, is `creation_time` or
`com.apple.quicktime.creationdate`. -/
def creationTagLookup (tags : List (String × String)) : Option String :=
  tags.findSome? fun kv =>
    if strLower kv.1 == "creation_time" || strLower kv.1 == "com.apple.quicktime.creationdate"
    then some kv.2 else none

/-- Embeds `get_creation_time_from_metadata`: the `format` section's tags are
scanned first, then each stream's tags in order. -/
def get_creation_time_from_metadata (info : ProbeInfo) : Option String :=
  match creationTagLookup info.format_tags with
  | some v => some v
  | none => info.streams.findSome? fun s => creationTagLookup s.tags

/-- Completed loop state: the fold over all probed streams, then the
container reason fixed up exactly as in lines 276-279 of the source. -/
def computeFlags (ext : String) (streams : List StreamInfo) : Flags :=
  let f := streams.foldl processStream (initFlags ext)
  { f with container_reason := if f.container_needed then some "container" else none }

/-- Output row of the evaluators. The Python code stores a dict per file and
populates fields per branch; absent fields are `none`. -/
structure Entry where
  file : String
  action : Option String := none
  reason : Option String := none
  creation_time : Option String := none
  audio_channels : Option Nat := none
  video_codec_needed : Option Nat := none
  audio_codec_needed : Option Nat := none
  deriving Repr, DecidableEq

/-- Row for a skipped file: only `action` and `reason` are populated. -/
def mkSkip (file reason : String) : Entry :=
  { file, action := some "skip", reason := some reason }

/-- Per-file context assembled by the crawler and the `os` calls:
the absolute path, the bare file name, the probe result (`none` when
`ffprobe` failed), the local calendar year of the file's mtime
(`datetime.fromtimestamp(mod_time).year`), and the ISO-8601 UTC rendering of
the mtime (`datetime.utcfromtimestamp(mod_time).isoformat() + 'Z'`). -/
structure FileCtx where
  filePath : String
  fileName : String
  probe : Option ProbeInfo
  modYearLocal : Nat
  mtimeIsoUtc : String

/-- Lines 285-302 of `crawl_and_evaluate`: keep a truthy metadata creation
time; otherwise fall back to the file mtime when the path carries a year
matching the mtime's local year, and fail with the skip reason otherwise. -/
def resolveCreationTime (ctx : FileCtx) (ctMeta : Option String) : Except String String :=
  if pyTruthy ctMeta then Except.ok (ctMeta.getD "")
  else
    match extract_year_from_path ctx.filePath with
    | some pathYear =>
      if toString ctx.modYearLocal == pathYear then Except.ok ctx.mtimeIsoUtc
      else Except.error "file modified time mismatch"
    | none => Except.error "no year in path"

/-- Lines 304-336 of `crawl_and_evaluate`: the move/convert decision and the
reason string, given the completed flags and the resolved creation time.
The source appends `hdr_reason` without an inner truthiness guard; it is
`some "HDR to SDR"` whenever `hdr_to_sdr_needed` is set (see
`hdr_reason_of_needed`), so `Option.toList` renders the same list. -/
def finishVideo (file ct : String) (fl : Flags) : Entry :=
  if !fl.video_codec_needed && !fl.audio_codec_needed
      && !fl.container_needed && !fl.hdr_to_sdr_needed then
    { file, action := some "move", reason := some "fully compatible already",
      creation_time := some ct, audio_channels := some fl.audio_channels,
      video_codec_needed := some 0, audio_codec_needed := some 0 }
  else
    let reasons :=
      (if fl.video_codec_needed then fl.video_reason.toList else [])
        ++ (if fl.hdr_to_sdr_needed then fl.hdr_reason.toList else [])
        ++ (if fl.audio_codec_needed then fl.audio_reason.toList else [])
        ++ (if fl.container_needed then fl.container_reason.toList else [])
    let reason_str :=
      if reasons.isEmpty then "convert" else "convert: " ++ String.intercalate "+" reasons
    { file, action := some "convert", reason := some reason_str,
      creation_time := some ct, audio_channels := some fl.audio_channels,
      video_codec_needed := some (if fl.video_codec_needed then 1 else 0),
      audio_codec_needed := some (if fl.audio_codec_needed then 1 else 0) }

/-- One file's pass through `evaluate_video_files.crawl_and_evaluate`
(lines 228-336). -/
def evaluateVideoFile (videoExtensions skiplist : List String) (ctx : FileCtx) : Entry :=
  let ext := extOf ctx.fileName
  if !videoExtensions.contains ext then mkSkip ctx.filePath "wrong extension"
  else if should_skip_by_partial_match ctx.filePath skiplist then
    mkSkip ctx.filePath "skiplist match"
  else
    match ctx.probe with
    | none => mkSkip ctx.filePath "ffprobe failed"
    | some info =>
      let fl := computeFlags ext info.streams
      match resolveCreationTime ctx (get_creation_time_from_metadata info) with
      | Except.error reason => mkSkip ctx.filePath reason
      | Except.ok ct => finishVideo ctx.filePath ct fl

/-- Whole video crawl: one row appended per crawled file, in crawl order. -/
def crawlVideos (videoExtensions skiplist : List String) (files : List FileCtx) : List Entry :=
  files.map (evaluateVideoFile videoExtensions skiplist)

/-- Per-file context for the image evaluator: path, name, the EXIF
`DateTimeOriginal` value (`none` when absent or the read failed), and the
local calendar year of the file's mtime. -/
structure ImgCtx where
  filePath : String
  fileName : String
  exifDateTaken : Option String
  modYearLocal : Nat

/-- One file's pass through `evaluate_image_files.crawl_and_evaluate`
(lines 95-125). -/
def evaluateImageFile (imageExtensions skiplist : List String) (ctx : ImgCtx) : Entry :=
  let ext := extOf ctx.fileName
  if !imageExtensions.contains ext then mkSkip ctx.filePath "wrong extension"
  else if should_skip_by_partial_match ctx.filePath skiplist then
    mkSkip ctx.filePath "skiplist match"
  else if pyTruthy ctx.exifDateTaken then
    { file := ctx.filePath, action := some "move", reason := some "date taken available" }
  else
    match extract_year_from_path ctx.filePath with
    | some pathYear =>
      if toString ctx.modYearLocal == pathYear then
        { file := ctx.filePath, action := some "move",
          reason := some "date modified year correct" }
      else mkSkip ctx.filePath "date modified year mismatch"
    | none => mkSkip ctx.filePath "no year in path"

/-- Row of `evaluate_duplicates.evaluate_folder`. The perceptual hash is kept
as its bit fingerprint (`none` when `get_image_phash` failed); the source
stores the hex rendering and converts back to bits before comparing. -/
structure DupeEntry where
  file : String
  size : Nat
  phash : Option (List Bool) := none
  dupe_type : String := ""
  dupe_of : String := ""
  deriving Repr, DecidableEq

/-- Hamming distance between two bit fingerprints, as computed by
`imagehash.hex_to_hash(a) - imagehash.hex_to_hash(b)`: the number of
positions where the (equal-length) fingerprints differ. -/
def hammingDist (a b : List Bool) : Nat :=
  (List.zipWith (fun x y => x != y) a b).count true

/-- Threshold from line 26 of the source: `800 * 1024` bytes. -/
def SIZE_THRESHOLD_BYTES : Nat := 800 * 1024

/-- Condition of line 76-78: both hashes truthy and Hamming distance at most
5. -/
def pairMatches (big small : DupeEntry) : Bool :=
  match big.phash, small.phash with
  | some bh, some sh => hammingDist bh sh ≤ 5
  | _, _ => false

/-- Effect of one big entry on one small entry in the inner loop of lines
74-81: a matching pair marks the small entry as `dupe_small` of this big. -/
def updSmall (big small : DupeEntry) : DupeEntry :=
  if pairMatches big small then
    { small with dupe_type := "dupe_small", dupe_of := big.file }
  else small

/-- Inner loop `for small in small_imgs` of lines 75-81, for one big entry:
returns the (possibly marked) big entry and the updated small pool. -/
def innerLoop (big : DupeEntry) : List DupeEntry → DupeEntry × List DupeEntry
  | [] => (big, [])
  | s :: rest =>
    let bs :=
      if pairMatches big s then
        ({ big with dupe_type := "dupe_big" },
         { s with dupe_type := "dupe_small", dupe_of := big.file })
      else (big, s)
    let tail := innerLoop bs.1 rest
    (tail.1, bs.2 :: tail.2)

/-- Outer loop `for big in big_imgs` of lines 74-81: each big entry runs the
inner loop over the current small pool. -/
def matchAll : List DupeEntry → List DupeEntry → List DupeEntry × List DupeEntry
  | [], smalls => ([], smalls)
  | b :: bs, smalls =>
    let step := innerLoop b smalls
    let rest := matchAll bs step.2
    (step.1 :: rest.1, rest.2)

/-- Pool-building step of lines 54-72: stat the file (dropping it when the
stat raises), hash it, and append it to the big or small pool by the size
threshold. -/
def poolStep (getsize : String → Option Nat) (getPhash : String → Option (List Bool))
    (folderPath : String) (pools : List DupeEntry × List DupeEntry) (name : String) :
    List DupeEntry × List DupeEntry :=
  let path := folderPath ++ "/" ++ name
  match getsize path with
  | none => pools
  | some size =>
    let e : DupeEntry := { file := path, size := size, phash := getPhash path }
    if size ≥ SIZE_THRESHOLD_BYTES then (pools.1 ++ [e], pools.2)
    else (pools.1, pools.2 ++ [e])

/-- Embeds `evaluate_duplicates.evaluate_folder`. `getsize` models
`os.path.getsize` (`none` when it raises, in which case the file is dropped
by the `continue` of line 59); `getPhash` models `get_image_phash`. The pools
are built in input order, matched pairwise, and emitted bigs-then-smalls. -/
def evaluate_folder (getsize : String → Option Nat) (getPhash : String → Option (List Bool))
    (folderPath : String) (filenames : List String) : List DupeEntry :=
  let pools := filenames.foldl (poolStep getsize getPhash folderPath) ([], [])
  let matched := matchAll pools.1 pools.2
  matched.1 ++ matched.2

/-! ### Characterizing the stream loop -/

/-- Fold that applies the latest defined update, keeping the accumulator when
the update function yields `none`. -/
def foldOpt {β : Type} (g : StreamInfo → Option β) (init : β) (l : List StreamInfo) : β :=
  l.foldl (fun acc s => (g s).getD acc) init

/-- Update contributed by one stream to `video_codec_needed`. -/
def vcnUpd (s : StreamInfo) : Option Bool :=
  if s.codec_type == some "video" then some (!(isHvc1 s && !is_hdr_stream s)) else none

/-- Update contributed by one stream to `audio_codec_needed`: only an `aac`
audio stream touches it (clearing it), a non-`aac` audio stream leaves it. -/
def acnUpd (s : StreamInfo) : Option Bool :=
  if s.codec_type == some "audio" && s.codec_name == some "aac" then some false else none

/-- Update contributed by one stream to `audio_channels`. -/
def chUpd (s : StreamInfo) : Option Nat :=
  if s.codec_type == some "audio" then some (s.channels.getD 2) else none

/-- Update contributed by one stream to `hdr_to_sdr_needed`. -/
def hdrUpd (s : StreamInfo) : Option Bool :=
  if s.codec_type == some "video" && is_hdr_stream s then some true else none

/-- Update contributed by one stream to `video_reason`. -/
def vrUpd (s : StreamInfo) : Option (Option String) :=
  if s.codec_type == some "video" && !isHvc1 s then some (some "video codec") else none

/-- Update contributed by one stream to `audio_reason`. -/
def arUpd (s : StreamInfo) : Option (Option String) :=
  if s.codec_type == some "audio" && !(s.codec_name == some "aac") then
    some (some "audio codec")
  else none

/-- Update contributed by one stream to `hdr_reason`. -/
def hrUpd (s : StreamInfo) : Option (Option String) :=
  if s.codec_type == some "video" && is_hdr_stream s then some (some "HDR to SDR") else none

/-- One loop iteration is exactly the per-field updates. -/
theorem processStream_eq (f : Flags) (s : StreamInfo) :
    processStream f s =
      { video_codec_needed := (vcnUpd s).getD f.video_codec_needed,
        audio_codec_needed := (acnUpd s).getD f.audio_codec_needed,
        container_needed := f.container_needed,
        audio_channels := (chUpd s).getD f.audio_channels,
        hdr_to_sdr_needed := (hdrUpd s).getD f.hdr_to_sdr_needed,
        video_reason := (vrUpd s).getD f.video_reason,
        audio_reason := (arUpd s).getD f.audio_reason,
        container_reason := f.container_reason,
        hdr_reason := (hrUpd s).getD f.hdr_reason } := by
  by_cases hv : s.codec_type == some "video" <;>
    by_cases ha : s.codec_type == some "audio" <;>
      simp_all [processStream, vcnUpd, acnUpd, chUpd, hdrUpd, vrUpd, arUpd, hrUpd] <;>
        by_cases h1 : isHvc1 s <;> by_cases h2 : is_hdr_stream s <;>
          by_cases h3 : s.codec_name = some "aac" <;> simp_all

/-- The whole stream loop, field by field. -/
theorem foldl_processStream (streams : List StreamInfo) (f : Flags) :
    streams.foldl processStream f =
      { video_codec_needed := foldOpt vcnUpd f.video_codec_needed streams,
        audio_codec_needed := foldOpt acnUpd f.audio_codec_needed streams,
        container_needed := f.container_needed,
        audio_channels := foldOpt chUpd f.audio_channels streams,
        hdr_to_sdr_needed := foldOpt hdrUpd f.hdr_to_sdr_needed streams,
        video_reason := foldOpt vrUpd f.video_reason streams,
        audio_reason := foldOpt arUpd f.audio_reason streams,
        container_reason := f.container_reason,
        hdr_reason := foldOpt hrUpd f.hdr_reason streams } := by
  induction streams generalizing f with
  | nil => rfl
  | cons s ss ih => rw [List.foldl_cons, processStream_eq, ih]; rfl

/-- The completed flags, field by field. -/
theorem computeFlags_eq (ext : String) (streams : List StreamInfo) :
    computeFlags ext streams =
      { video_codec_needed := foldOpt vcnUpd true streams,
        audio_codec_needed := foldOpt acnUpd true streams,
        container_needed := ext != "mov",
        audio_channels := foldOpt chUpd 2 streams,
        hdr_to_sdr_needed := foldOpt hdrUpd false streams,
        video_reason := foldOpt vrUpd none streams,
        audio_reason := foldOpt arUpd none streams,
        container_reason := if ext != "mov" then some "container" else none,
        hdr_reason := foldOpt hrUpd none streams } := by
  rw [computeFlags, initFlags, foldl_processStream]

/-- Dropping the head of a list with at least two elements keeps its last
element. -/
theorem getLast?_cons_cons {α : Type} (a b : α) (t : List α) :
    (a :: b :: t).getLast? = (b :: t).getLast? := by
  simp [List.getLast?, List.getLast]

/-- Folding an update of the shape "set to `c` when `p` holds" is sticky:
the result is `c` exactly when some stream satisfies `p`. -/
theorem foldOpt_sticky {β : Type} (p : StreamInfo → Bool) (c : β) (i : β) (l : List StreamInfo) :
    foldOpt (fun s => if p s then some c else none) i l = if l.any p then c else i := by
  induction l generalizing i with
  | nil => rfl
  | cons s ss ih =>
    rw [show foldOpt (fun s => if p s then some c else none) i (s :: ss) =
        foldOpt (fun s => if p s then some c else none)
          ((if p s then some c else none).getD i) ss from rfl, ih]
    by_cases hp : p s <;> simp [hp]

/-- Folding an update guarded by `p` yields the value of the last stream
satisfying `p` (the accumulator when there is none). -/
theorem foldOpt_guard {β : Type} (p : StreamInfo → Bool) (h : StreamInfo → β) (i : β)
    (l : List StreamInfo) :
    foldOpt (fun s => if p s then some (h s) else none) i l =
      match (l.filter p).getLast? with
      | some s => h s
      | none => i := by
  induction l generalizing i with
  | nil => rfl
  | cons s ss ih =>
    rw [show foldOpt (fun s => if p s then some (h s) else none) i (s :: ss) =
        foldOpt (fun s => if p s then some (h s) else none)
          ((if p s then some (h s) else none).getD i) ss from rfl, ih]
    cases hp : p s with
    | true =>
      rw [show (s :: ss).filter p = s :: ss.filter p from by simp [hp]]
      cases hfp : ss.filter p with
      | nil => simp [hfp, List.getLast?]
      | cons b t =>
        rw [getLast?_cons_cons]
        cases hbt : (b :: t).getLast? with
        | none => simp [List.getLast?] at hbt
        | some u => rfl
    | false =>
      rw [show (s :: ss).filter p = ss.filter p from by simp [hp]]
      simp

/-- Predicate: the stream is a video stream. -/
def isVideoType (s : StreamInfo) : Bool := s.codec_type == some "video"

/-- Predicate: the stream is an audio stream. -/
def isAudioType (s : StreamInfo) : Bool := s.codec_type == some "audio"

/-- The `video_codec_needed` flag follows the last video stream. -/
theorem computeFlags_vcn (ext : String) (streams : List StreamInfo) :
    (computeFlags ext streams).video_codec_needed =
      match (streams.filter isVideoType).getLast? with
      | some v => !(isHvc1 v && !is_hdr_stream v)
      | none => true := by
  rw [computeFlags_eq]
  show foldOpt (fun s => if isVideoType s then some (!(isHvc1 s && !is_hdr_stream s)) else none)
    true streams = _
  rw [foldOpt_guard]

/-- The `audio_codec_needed` flag is cleared by any aac audio stream and by
nothing else. -/
theorem computeFlags_acn (ext : String) (streams : List StreamInfo) :
    (computeFlags ext streams).audio_codec_needed =
      !(streams.any fun s => isAudioType s && s.codec_name == some "aac") := by
  rw [computeFlags_eq]
  show foldOpt (fun s => if (isAudioType s && s.codec_name == some "aac") then some false else none)
    true streams = _
  rw [foldOpt_sticky]
  cases streams.any fun s => isAudioType s && s.codec_name == some "aac" <;> rfl

/-- The `audio_channels` value follows the last audio stream. -/
theorem computeFlags_channels (ext : String) (streams : List StreamInfo) :
    (computeFlags ext streams).audio_channels =
      match (streams.filter isAudioType).getLast? with
      | some a => a.channels.getD 2
      | none => 2 := by
  rw [computeFlags_eq]
  show foldOpt (fun s => if isAudioType s then some (s.channels.getD 2) else none) 2 streams = _
  rw [foldOpt_guard]

/-- The `hdr_to_sdr_needed` flag is set by any HDR video stream and by
nothing else. -/
theorem computeFlags_hdr (ext : String) (streams : List StreamInfo) :
    (computeFlags ext streams).hdr_to_sdr_needed =
      (streams.any fun s => isVideoType s && is_hdr_stream s) := by
  rw [computeFlags_eq]
  show foldOpt (fun s => if (isVideoType s && is_hdr_stream s) then some true else none)
    false streams = _
  rw [foldOpt_sticky]
  cases streams.any fun s => isVideoType s && is_hdr_stream s <;> rfl

/-- The `video_reason` marker is set by any non-hvc1 video stream. -/
theorem computeFlags_vr (ext : String) (streams : List StreamInfo) :
    (computeFlags ext streams).video_reason =
      (if streams.any (fun s => isVideoType s && !isHvc1 s) then some "video codec" else none) := by
  rw [computeFlags_eq]
  show foldOpt (fun s => if (isVideoType s && !isHvc1 s) then some (some "video codec") else none)
    none streams = _
  rw [foldOpt_sticky]

/-- The `audio_reason` marker is set by any non-aac audio stream. -/
theorem computeFlags_ar (ext : String) (streams : List StreamInfo) :
    (computeFlags ext streams).audio_reason =
      (if streams.any (fun s => isAudioType s && !(s.codec_name == some "aac")) then
        some "audio codec" else none) := by
  rw [computeFlags_eq]
  show foldOpt
    (fun s => if (isAudioType s && !(s.codec_name == some "aac")) then
      some (some "audio codec") else none) none streams = _
  rw [foldOpt_sticky]

/-- The `hdr_reason` marker is set by any HDR video stream. -/
theorem computeFlags_hr (ext : String) (streams : List StreamInfo) :
    (computeFlags ext streams).hdr_reason =
      (if streams.any (fun s => isVideoType s && is_hdr_stream s) then
        some "HDR to SDR" else none) := by
  rw [computeFlags_eq]
  show foldOpt (fun s => if (isVideoType s && is_hdr_stream s) then some (some "HDR to SDR")
    else none) none streams = _
  rw [foldOpt_sticky]

/-- The container flag depends only on the extension. -/
theorem computeFlags_container (ext : String) (streams : List StreamInfo) :
    (computeFlags ext streams).container_needed = (ext != "mov") := by
  rw [computeFlags_eq]

/-- The container reason depends only on the extension. -/
theorem computeFlags_cr (ext : String) (streams : List StreamInfo) :
    (computeFlags ext streams).container_reason =
      (if ext != "mov" then some "container" else none) := by
  rw [computeFlags_eq]

/-- Whenever the loop sets the HDR flag it also sets the HDR reason. -/
theorem hdr_reason_of_needed (ext : String) (streams : List StreamInfo)
    (h : (computeFlags ext streams).hdr_to_sdr_needed = true) :
    (computeFlags ext streams).hdr_reason = some "HDR to SDR" := by
  rw [computeFlags_hdr] at h
  rw [computeFlags_hr, h, if_pos rfl]

/-! ### Unfolding the evaluators under the early checks -/

/-- With the extension allowed, no skiplist match, a successful probe and a
resolved creation time, the video evaluator reaches the move/convert step. -/
theorem evaluateVideoFile_eq_finish (exts skl : List String) (ctx : FileCtx)
    (info : ProbeInfo) (ct : String)
    (hext : exts.contains (extOf ctx.fileName) = true)
    (hskl : should_skip_by_partial_match ctx.filePath skl = false)
    (hprobe : ctx.probe = some info)
    (hct : resolveCreationTime ctx (get_creation_time_from_metadata info) = Except.ok ct) :
    evaluateVideoFile exts skl ctx =
      finishVideo ctx.filePath ct (computeFlags (extOf ctx.fileName) info.streams) := by
  simp [evaluateVideoFile, hext, hskl, hprobe, hct]
  intro h
  simp at hext
  exact absurd hext h

/-- With the extension allowed, no skiplist match and a successful probe, a
failing date resolution skips the file with the resolver's reason. -/
theorem evaluateVideoFile_eq_skip_date (exts skl : List String) (ctx : FileCtx)
    (info : ProbeInfo) (r : String)
    (hext : exts.contains (extOf ctx.fileName) = true)
    (hskl : should_skip_by_partial_match ctx.filePath skl = false)
    (hprobe : ctx.probe = some info)
    (hct : resolveCreationTime ctx (get_creation_time_from_metadata info) = Except.error r) :
    evaluateVideoFile exts skl ctx = mkSkip ctx.filePath r := by
  simp [evaluateVideoFile, hext, hskl, hprobe, hct]
  intro h
  simp at hext
  exact absurd hext h

/-- Date resolution with no usable metadata date and a year in the path
compares the mtime's local year against the path year. -/
theorem resolveCreationTime_no_meta_year (ctx : FileCtx) (m : Option String) (y : String)
    (hm : pyTruthy m = false) (hy : extract_year_from_path ctx.filePath = some y) :
    resolveCreationTime ctx m =
      if toString ctx.modYearLocal == y then Except.ok ctx.mtimeIsoUtc
      else Except.error "file modified time mismatch" := by
  simp [resolveCreationTime, hm, hy]

/-- Date resolution with no usable metadata date and no year in the path
fails with "no year in path". -/
theorem resolveCreationTime_no_meta_no_year (ctx : FileCtx) (m : Option String)
    (hm : pyTruthy m = false) (hy : extract_year_from_path ctx.filePath = none) :
    resolveCreationTime ctx m = Except.error "no year in path" := by
  simp [resolveCreationTime, hm, hy]

/-- With the extension allowed, no skiplist match and no usable EXIF date,
the image evaluator reaches the year-fallback step. -/
theorem evaluateImageFile_no_exif (exts skl : List String) (ctx : ImgCtx)
    (hext : exts.contains (extOf ctx.fileName) = true)
    (hskl : should_skip_by_partial_match ctx.filePath skl = false)
    (hexif : pyTruthy ctx.exifDateTaken = false) :
    evaluateImageFile exts skl ctx =
      match extract_year_from_path ctx.filePath with
      | some pathYear =>
        if toString ctx.modYearLocal == pathYear then
          { file := ctx.filePath, action := some "move",
            reason := some "date modified year correct" }
        else mkSkip ctx.filePath "date modified year mismatch"
      | none => mkSkip ctx.filePath "no year in path" := by
  simp [evaluateImageFile, hext, hskl, hexif]
  intro h
  simp at hext
  exact absurd hext h

/-- A disallowed extension short-circuits the video evaluator. -/
theorem evaluateVideoFile_wrong_ext (exts skl : List String) (ctx : FileCtx)
    (hext : exts.contains (extOf ctx.fileName) = false) :
    evaluateVideoFile exts skl ctx = mkSkip ctx.filePath "wrong extension" := by
  simp [evaluateVideoFile, hext]
  intro h
  simp at hext
  exact absurd h hext

/-- A skiplist match short-circuits the video evaluator (after the extension
check). -/
theorem evaluateVideoFile_skiplist (exts skl : List String) (ctx : FileCtx)
    (hext : exts.contains (extOf ctx.fileName) = true)
    (hskl : should_skip_by_partial_match ctx.filePath skl = true) :
    evaluateVideoFile exts skl ctx = mkSkip ctx.filePath "skiplist match" := by
  simp [evaluateVideoFile, hext, hskl]
  intro h
  simp at hext
  exact absurd hext h

/-- A failed probe short-circuits the video evaluator. -/
theorem evaluateVideoFile_probe_failed (exts skl : List String) (ctx : FileCtx)
    (hext : exts.contains (extOf ctx.fileName) = true)
    (hskl : should_skip_by_partial_match ctx.filePath skl = false)
    (hprobe : ctx.probe = none) :
    evaluateVideoFile exts skl ctx = mkSkip ctx.filePath "ffprobe failed" := by
  simp [evaluateVideoFile, hext, hskl, hprobe]
  intro h
  simp at hext
  exact absurd hext h

/-! ### Sample inputs used by the witnesses -/

/-- Sample compatible video stream: hvc1-tagged HEVC, SDR. -/
def vCompat : StreamInfo :=
  { codec_type := some "video", codec_name := some "hevc", codec_tag_string := some "hvc1" }

/-- Sample incompatible video stream: h264. -/
def vH264 : StreamInfo := { codec_type := some "video", codec_name := some "h264" }

/-- Sample incompatible HDR video stream: h264 with an HDR transfer curve. -/
def vH264Hdr : StreamInfo :=
  { codec_type := some "video", codec_name := some "h264", color_trc := some "smpte2084" }

/-- Sample compatible audio stream. -/
def aAac : StreamInfo :=
  { codec_type := some "audio", codec_name := some "aac", channels := some 2 }

/-- Sample incompatible audio stream. -/
def aMp3 : StreamInfo :=
  { codec_type := some "audio", codec_name := some "mp3", channels := some 1 }

/-- Sample context: an mp4 needing video and container conversion. -/
def sampleConvertCtx : FileCtx :=
  { filePath := "/data/2018/a.mp4", fileName := "a.mp4",
    probe := some { format_tags := [("creation_time", "2018-07-17T14:22:10Z")],
                    streams := [vH264, aAac] },
    modYearLocal := 2018, mtimeIsoUtc := "2018-08-03T10:00:00Z" }

/-! ### Claim theorems -/

/-- Claim C1: whenever the video classifier's decision has
`action = convert`, at least one of the four need-flags
`{video_codec_needed, audio_codec_needed, container_needed, hdr_to_sdr_needed}`
computed for that file is true. -/
theorem convert_implies_need_flag (exts skl : List String) (ctx : FileCtx)
    (h : (evaluateVideoFile exts skl ctx).action = some "convert") :
    ∃ info, ctx.probe = some info ∧
      ((computeFlags (extOf ctx.fileName) info.streams).video_codec_needed = true ∨
       (computeFlags (extOf ctx.fileName) info.streams).audio_codec_needed = true ∨
       (computeFlags (extOf ctx.fileName) info.streams).container_needed = true ∨
       (computeFlags (extOf ctx.fileName) info.streams).hdr_to_sdr_needed = true) := by
  by_cases hext : exts.contains (extOf ctx.fileName) = true
  case neg =>
    rw [evaluateVideoFile_wrong_ext exts skl ctx (by simpa using hext)] at h
    simp [mkSkip] at h
  by_cases hskl : should_skip_by_partial_match ctx.filePath skl = true
  case neg =>
    cases hprobe : ctx.probe with
    | none =>
      rw [evaluateVideoFile_probe_failed exts skl ctx hext (by simpa using hskl) hprobe] at h
      simp [mkSkip] at h
    | some info =>
      refine ⟨info, rfl, ?_⟩
      cases hres : resolveCreationTime ctx (get_creation_time_from_metadata info) with
      | error r =>
        rw [evaluateVideoFile_eq_skip_date exts skl ctx info r hext (by simpa using hskl)
          hprobe hres] at h
        simp [mkSkip] at h
      | ok ct =>
        rw [evaluateVideoFile_eq_finish exts skl ctx info ct hext (by simpa using hskl)
          hprobe hres] at h
        unfold finishVideo at h
        split at h
        · simp at h
        · rename_i hcond
          set fl := computeFlags (extOf ctx.fileName) info.streams with hfl
          by_cases h1 : fl.video_codec_needed = true
          · exact Or.inl h1
          · by_cases h2 : fl.audio_codec_needed = true
            · exact Or.inr (Or.inl h2)
            · by_cases h3 : fl.container_needed = true
              · exact Or.inr (Or.inr (Or.inl h3))
              · by_cases h4 : fl.hdr_to_sdr_needed = true
                · exact Or.inr (Or.inr (Or.inr h4))
                · exact absurd (by simp_all) hcond
  case pos =>
    rw [evaluateVideoFile_skiplist exts skl ctx hext hskl] at h
    simp [mkSkip] at h

/-- Witness for C1: the sample mp4 context yields a convert decision, and the
theorem produces a true need-flag for it. -/
theorem convert_implies_need_flag_witness :
    ∃ info, sampleConvertCtx.probe = some info ∧
      ((computeFlags (extOf sampleConvertCtx.fileName) info.streams).video_codec_needed = true ∨
       (computeFlags (extOf sampleConvertCtx.fileName) info.streams).audio_codec_needed = true ∨
       (computeFlags (extOf sampleConvertCtx.fileName) info.streams).container_needed = true ∨
       (computeFlags (extOf sampleConvertCtx.fileName) info.streams).hdr_to_sdr_needed = true) :=
  convert_implies_need_flag ["mkv", "mp4", "mov"] ["Trash"] sampleConvertCtx (by decide)

/-- Sample context: a non-video file inside a skiplisted folder. -/
def trashGifCtx : FileCtx :=
  { filePath := "/data/Trash/a.gif", fileName := "a.gif", probe := none,
    modYearLocal := 2018, mtimeIsoUtc := "2018-08-03T10:00:00Z" }

/-- Sample context: a video file inside a skiplisted folder. -/
def trashMovCtx : FileCtx :=
  { filePath := "/data/Trash/b.mov", fileName := "b.mov", probe := none,
    modYearLocal := 2018, mtimeIsoUtc := "2018-08-03T10:00:00Z" }

/-- Sample image context: an image inside a skiplisted folder, with an EXIF
date that would otherwise yield a move. -/
def trashJpgCtx : ImgCtx :=
  { filePath := "/data/Trash/c.jpg", fileName := "c.jpg",
    exifDateTaken := some "2018:04:15 12:00:00", modYearLocal := 2018 }

/-- The configured skiplist of the source. -/
def SKIPLIST_PARTIAL_MATCH : List String := ["GOEF", "Elia", "BBM", "Trash", "small"]

/-- Counterexample to claim C2 as stated: a file whose path matches the
skiplist but whose extension is not allowed is skipped with reason
"wrong extension", not "skiplist match" — the extension rule runs first. -/
theorem skiplist_precedence_counterexample :
    should_skip_by_partial_match trashGifCtx.filePath SKIPLIST_PARTIAL_MATCH = true ∧
    (evaluateVideoFile ["mkv", "mp4", "mov"] SKIPLIST_PARTIAL_MATCH trashGifCtx).reason
      = some "wrong extension" ∧
    (evaluateVideoFile ["mkv", "mp4", "mov"] SKIPLIST_PARTIAL_MATCH trashGifCtx).reason
      ≠ some "skiplist match" := by
  refine ⟨by decide, by decide, by decide⟩

/-- Claim C2 as amended: among files whose extension is allowed, a skiplist
match (case-insensitive substring of the path) yields skip with reason
"skiplist match" in both classifiers, regardless of every other attribute;
only the extension rule runs before it. -/
theorem skiplist_match_skips (vexts iexts skl : List String) (vc : FileCtx) (ic : ImgCtx)
    (hve : vexts.contains (extOf vc.fileName) = true)
    (hvs : should_skip_by_partial_match vc.filePath skl = true)
    (hie : iexts.contains (extOf ic.fileName) = true)
    (his : should_skip_by_partial_match ic.filePath skl = true) :
    evaluateVideoFile vexts skl vc = mkSkip vc.filePath "skiplist match" ∧
    evaluateImageFile iexts skl ic = mkSkip ic.filePath "skiplist match" := by
  refine ⟨evaluateVideoFile_skiplist vexts skl vc hve hvs, ?_⟩
  simp [evaluateImageFile, hie, his]
  intro h
  simp at hie
  exact absurd hie h

/-- Witness for the amended C2 at concrete skiplisted inputs. -/
theorem skiplist_match_skips_witness :
    evaluateVideoFile ["mkv", "mp4", "mov"] SKIPLIST_PARTIAL_MATCH trashMovCtx
      = mkSkip trashMovCtx.filePath "skiplist match" ∧
    evaluateImageFile ["jpg", "jpeg"] SKIPLIST_PARTIAL_MATCH trashJpgCtx
      = mkSkip trashJpgCtx.filePath "skiplist match" :=
  skiplist_match_skips ["mkv", "mp4", "mov"] ["jpg", "jpeg"] SKIPLIST_PARTIAL_MATCH
    trashMovCtx trashJpgCtx (by decide) (by decide) (by decide) (by decide)

/-- Counterexample to claim C9 as stated: with audio streams [aac, mp3] the
decision keeps `audio_codec_needed = false` from the first stream, while the
last stream alone would determine `audio_codec_needed = true`. -/
theorem last_stream_wins_counterexample :
    (computeFlags "mov" [aAac, aMp3]).audio_codec_needed = false ∧
    (computeFlags "mov" [aMp3]).audio_codec_needed = true := by
  refine ⟨by decide, by decide⟩

/-- Claim C9 as amended: with several streams of a type, only
`video_codec_needed` and `audio_channels` follow the last stream of the type;
`audio_codec_needed` is false iff some audio stream is aac (it is cleared and
never re-set), `hdr_to_sdr_needed` is true iff some video stream is HDR, and
the reason markers are set by any qualifying stream and never cleared. -/
theorem stream_fold_characterization (ext : String) (streams : List StreamInfo) :
    (computeFlags ext streams).video_codec_needed =
      (match (streams.filter isVideoType).getLast? with
        | some v => !(isHvc1 v && !is_hdr_stream v)
        | none => true) ∧
    (computeFlags ext streams).audio_channels =
      (match (streams.filter isAudioType).getLast? with
        | some a => a.channels.getD 2
        | none => 2) ∧
    (computeFlags ext streams).audio_codec_needed =
      !(streams.any fun s => isAudioType s && s.codec_name == some "aac") ∧
    (computeFlags ext streams).hdr_to_sdr_needed =
      (streams.any fun s => isVideoType s && is_hdr_stream s) ∧
    (computeFlags ext streams).video_reason =
      (if streams.any (fun s => isVideoType s && !isHvc1 s) then some "video codec" else none) ∧
    (computeFlags ext streams).audio_reason =
      (if streams.any (fun s => isAudioType s && !(s.codec_name == some "aac")) then
        some "audio codec" else none) ∧
    (computeFlags ext streams).hdr_reason =
      (if streams.any (fun s => isVideoType s && is_hdr_stream s) then
        some "HDR to SDR" else none) :=
  ⟨computeFlags_vcn ext streams, computeFlags_channels ext streams,
   computeFlags_acn ext streams, computeFlags_hdr ext streams,
   computeFlags_vr ext streams, computeFlags_ar ext streams,
   computeFlags_hr ext streams⟩

/-- A falsy optional string falls through Python `or`. -/
theorem pyOrStr_falsy (a : Option String) (b : String) (h : pyTruthy a = false) :
    pyOrStr a b = b := by
  cases a with
  | none => rfl
  | some s =>
    simp [pyTruthy] at h
    simp [pyOrStr, h]

/-- Sample stream: `color_trc` carries an HDR transfer curve but
`color_transfer` overrides it with an SDR one. -/
def trcOverrideStream : StreamInfo :=
  { codec_type := some "video", color_transfer := some "bt709",
    color_trc := some "smpte2084", pix_fmt := some "yuv420p",
    color_primaries := some "bt709" }

/-- Sample stream: 10-bit pixel format with bt709 primaries but an HDR
transfer curve. -/
def tenBitBt709HdrStream : StreamInfo :=
  { codec_type := some "video", color_trc := some "smpte2084",
    pix_fmt := some "yuv420p10le", color_primaries := some "bt709" }

/-- Counterexample to claim C4's universal glosses: a stream with
`color_trc = "smpte2084"` is NOT classified HDR when `color_transfer` holds a
non-HDR value (the fallback never fires), and a 10-bit stream with bt709
primaries IS classified HDR when its transfer curve is HDR. -/
theorem hdr_gloss_counterexample :
    (trcOverrideStream.color_trc = some "smpte2084" ∧
      is_hdr_stream trcOverrideStream = false) ∧
    (strContains (strLower (pyOrStr tenBitBt709HdrStream.pix_fmt "")) "10" = true ∧
      tenBitBt709HdrStream.color_primaries = some "bt709" ∧
      is_hdr_stream tenBitBt709HdrStream = true) := by
  refine ⟨⟨rfl, by decide⟩, by decide, rfl, by decide⟩

/-- Claim C4 as amended: `is_hdr_stream` is true iff (a) the transfer
characteristic (`color_transfer`, falling back on a falsy value to
`color_trc`) lower-cased is "smpte2084" or "arib-std-b67", or (b) the pixel
format contains "dovi", or (c) the pixel format contains "10"/"12"/"16" and
the primaries lower-cased are "bt2020"/"bt2020nc". A stream with
`color_trc = "smpte2084"` and no usable `color_transfer` is HDR regardless of
pixel format and primaries; a stream whose transfer characteristic is not an
HDR one and whose pixel format lacks "dovi" is not HDR when its primaries are
"bt709", whatever its bit depth. -/
theorem is_hdr_characterization :
    (∀ s : StreamInfo,
      is_hdr_stream s = true ↔
        (strLower (pyOrStr s.color_transfer (pyOrStr s.color_trc "")) = "smpte2084" ∨
         strLower (pyOrStr s.color_transfer (pyOrStr s.color_trc "")) = "arib-std-b67" ∨
         strContains (strLower (pyOrStr s.pix_fmt "")) "dovi" = true ∨
         ((strContains (strLower (pyOrStr s.pix_fmt "")) "10" = true ∨
           strContains (strLower (pyOrStr s.pix_fmt "")) "12" = true ∨
           strContains (strLower (pyOrStr s.pix_fmt "")) "16" = true) ∧
          (strLower (pyOrStr s.color_primaries "") = "bt2020" ∨
           strLower (pyOrStr s.color_primaries "") = "bt2020nc")))) ∧
    (∀ s : StreamInfo, pyTruthy s.color_transfer = false →
      s.color_trc = some "smpte2084" → is_hdr_stream s = true) ∧
    (∀ s : StreamInfo,
      strLower (pyOrStr s.color_transfer (pyOrStr s.color_trc "")) ≠ "smpte2084" →
      strLower (pyOrStr s.color_transfer (pyOrStr s.color_trc "")) ≠ "arib-std-b67" →
      strContains (strLower (pyOrStr s.pix_fmt "")) "dovi" = false →
      strLower (pyOrStr s.color_primaries "") = "bt709" →
      is_hdr_stream s = false) := by
  refine ⟨?_, ?_, ?_⟩
  · intro s
    simp only [is_hdr_stream]
    split_ifs with h1 h2 h3 <;> simp_all <;> tauto
  · intro s h1 h2
    have hv : pyOrStr s.color_transfer (pyOrStr s.color_trc "") = "smpte2084" := by
      rw [pyOrStr_falsy s.color_transfer _ h1, h2]
      rfl
    simp only [is_hdr_stream, hv]
    rw [if_pos]
    simp [strLower]
  · intro s h1 h2 h3 h4
    simp only [is_hdr_stream]
    split_ifs with g1 g2 g3 <;> simp_all

/-- Witness for the amended C4: the theorem applied to concrete HDR and SDR
streams. -/
theorem is_hdr_characterization_witness :
    is_hdr_stream { codec_type := some "video", color_trc := some "smpte2084" } = true ∧
    is_hdr_stream { codec_type := some "video", pix_fmt := some "yuv420p10le",
                    color_primaries := some "bt709" } = false :=
  ⟨is_hdr_characterization.2.1 _ rfl rfl,
   is_hdr_characterization.2.2 _ (by decide) (by decide) (by decide) (by decide)⟩

/-- The move/convert step always carries the resolved creation time. -/
theorem finishVideo_creation_time (f ct : String) (fl : Flags) :
    (finishVideo f ct fl).creation_time = some ct := by
  unfold finishVideo
  split <;> rfl

/-- The move/convert step only ever emits a move or a convert action. -/
theorem finishVideo_action (f ct : String) (fl : Flags) :
    (finishVideo f ct fl).action = some "move" ∨ (finishVideo f ct fl).action = some "convert" := by
  unfold finishVideo
  split
  · exact Or.inl rfl
  · exact Or.inr rfl

/-- Claim C5: with no usable metadata creation date but a year extracted from
the path, a matching local mtime year accepts the item (video: the decision
proceeds, with the mtime's ISO-8601 UTC string as creation time; image: move
with "date modified year correct"), and differing years skip with
"file modified time mismatch" (video) or "date modified year mismatch"
(image). -/
theorem mtime_fallback_decision (vexts iexts skl : List String) (vc : FileCtx)
    (info : ProbeInfo) (ic : ImgCtx) (vy iy : String)
    (hve : vexts.contains (extOf vc.fileName) = true)
    (hvs : should_skip_by_partial_match vc.filePath skl = false)
    (hprobe : vc.probe = some info)
    (hmeta : pyTruthy (get_creation_time_from_metadata info) = false)
    (hvy : extract_year_from_path vc.filePath = some vy)
    (hie : iexts.contains (extOf ic.fileName) = true)
    (his : should_skip_by_partial_match ic.filePath skl = false)
    (hexif : pyTruthy ic.exifDateTaken = false)
    (hiy : extract_year_from_path ic.filePath = some iy) :
    (toString vc.modYearLocal = vy →
      ((evaluateVideoFile vexts skl vc).action = some "move" ∨
        (evaluateVideoFile vexts skl vc).action = some "convert") ∧
      (evaluateVideoFile vexts skl vc).creation_time = some vc.mtimeIsoUtc) ∧
    (toString vc.modYearLocal ≠ vy →
      evaluateVideoFile vexts skl vc = mkSkip vc.filePath "file modified time mismatch") ∧
    (toString ic.modYearLocal = iy →
      evaluateImageFile iexts skl ic =
        { file := ic.filePath, action := some "move",
          reason := some "date modified year correct" }) ∧
    (toString ic.modYearLocal ≠ iy →
      evaluateImageFile iexts skl ic = mkSkip ic.filePath "date modified year mismatch") := by
  have hres := resolveCreationTime_no_meta_year vc (get_creation_time_from_metadata info)
    vy hmeta hvy
  refine ⟨?_, ?_, ?_, ?_⟩
  · intro hy
    rw [if_pos (by simpa using hy)] at hres
    rw [evaluateVideoFile_eq_finish vexts skl vc info vc.mtimeIsoUtc hve hvs hprobe hres]
    exact ⟨finishVideo_action _ _ _, finishVideo_creation_time _ _ _⟩
  · intro hy
    rw [if_neg (by simpa using hy)] at hres
    exact evaluateVideoFile_eq_skip_date vexts skl vc info _ hve hvs hprobe hres
  · intro hy
    rw [evaluateImageFile_no_exif iexts skl ic hie his hexif, hiy]
    simp [hy]
  · intro hy
    rw [evaluateImageFile_no_exif iexts skl ic hie his hexif, hiy]
    simp [hy]

/-- Sample context: video with no metadata date, mtime year matching the
path year. -/
def noMetaCtx2018 : FileCtx :=
  { filePath := "/data/2018/wa.mp4", fileName := "wa.mp4",
    probe := some { streams := [vH264, aAac] },
    modYearLocal := 2018, mtimeIsoUtc := "2018-08-03T10:00:00Z" }

/-- Sample context: same video but with mtime year 2024. -/
def noMetaCtx2024 : FileCtx :=
  { filePath := "/data/2018/wa.mp4", fileName := "wa.mp4",
    probe := some { streams := [vH264, aAac] },
    modYearLocal := 2024, mtimeIsoUtc := "2024-01-15T10:00:00Z" }

/-- Sample image context: no EXIF date, mtime year matching the path year. -/
def imgCtx2018 : ImgCtx :=
  { filePath := "/data/2018/a.jpg", fileName := "a.jpg",
    exifDateTaken := none, modYearLocal := 2018 }

/-- Sample image context: no EXIF date, mtime year 2024. -/
def imgCtx2024 : ImgCtx :=
  { filePath := "/data/2018/a.jpg", fileName := "a.jpg",
    exifDateTaken := none, modYearLocal := 2024 }

/-- Witness for C5 at concrete matching and mismatching inputs. -/
theorem mtime_fallback_decision_witness :
    (evaluateVideoFile ["mkv", "mp4", "mov"] ["Trash"] noMetaCtx2018).creation_time
      = some "2018-08-03T10:00:00Z" ∧
    evaluateVideoFile ["mkv", "mp4", "mov"] ["Trash"] noMetaCtx2024
      = mkSkip noMetaCtx2024.filePath "file modified time mismatch" ∧
    evaluateImageFile ["jpg", "jpeg"] ["Trash"] imgCtx2018
      = { file := imgCtx2018.filePath, action := some "move",
          reason := some "date modified year correct" } ∧
    evaluateImageFile ["jpg", "jpeg"] ["Trash"] imgCtx2024
      = mkSkip imgCtx2024.filePath "date modified year mismatch" :=
  ⟨((mtime_fallback_decision ["mkv", "mp4", "mov"] ["jpg", "jpeg"] ["Trash"] noMetaCtx2018
      { streams := [vH264, aAac] } imgCtx2018 "2018" "2018" (by decide) (by decide) rfl
      (by decide) (by decide) (by decide) (by decide) (by decide) (by decide)).1
      (by decide)).2,
   (mtime_fallback_decision ["mkv", "mp4", "mov"] ["jpg", "jpeg"] ["Trash"] noMetaCtx2024
      { streams := [vH264, aAac] } imgCtx2024 "2018" "2018" (by decide) (by decide) rfl
      (by decide) (by decide) (by decide) (by decide) (by decide) (by decide)).2.1
      (by decide),
   (mtime_fallback_decision ["mkv", "mp4", "mov"] ["jpg", "jpeg"] ["Trash"] noMetaCtx2018
      { streams := [vH264, aAac] } imgCtx2018 "2018" "2018" (by decide) (by decide) rfl
      (by decide) (by decide) (by decide) (by decide) (by decide) (by decide)).2.2.1
      (by decide),
   (mtime_fallback_decision ["mkv", "mp4", "mov"] ["jpg", "jpeg"] ["Trash"] noMetaCtx2024
      { streams := [vH264, aAac] } imgCtx2024 "2018" "2018" (by decide) (by decide) rfl
      (by decide) (by decide) (by decide) (by decide) (by decide) (by decide)).2.2.2
      (by decide)⟩

/-- A `findSome?` scan returns exactly the first element whose probe fires:
the list decomposes into a prefix of non-matching elements, the matched
element, and a remainder. -/
theorem findSome?_first_match {α β : Type} (f : α → Option β) (l : List α) (b : β) :
    l.findSome? f = some b ↔
      ∃ pre x post, l = pre ++ x :: post ∧ f x = some b ∧ ∀ p ∈ pre, f p = none := by
  induction l with
  | nil =>
    simp only [List.findSome?_nil]
    constructor
    · intro h; cases h
    · rintro ⟨pre, x, post, hl, -, -⟩
      exact absurd hl (by simp)
  | cons a t ih =>
    rw [List.findSome?_cons]
    cases hfa : f a with
    | some v =>
      constructor
      · intro h
        exact ⟨[], a, t, rfl, by rw [hfa]; exact h, by simp⟩
      · rintro ⟨pre, x, post, hl, hfx, hpre⟩
        cases pre with
        | nil =>
          simp only [List.nil_append] at hl
          cases hl
          rw [hfa] at hfx
          exact hfx
        | cons p ps =>
          have hap : a = p := by injection hl
          have : f a = none := hap ▸ hpre p (by simp)
          rw [this] at hfa
          cases hfa
    | none =>
      rw [ih]
      constructor
      · rintro ⟨pre, x, post, hl, hfx, hpre⟩
        exact ⟨a :: pre, x, post, by rw [hl]; rfl, hfx, by
          intro p hp
          rcases List.mem_cons.mp hp with h | h
          · rw [h]; exact hfa
          · exact hpre p h⟩
      · rintro ⟨pre, x, post, hl, hfx, hpre⟩
        cases pre with
        | nil =>
          simp only [List.nil_append] at hl
          cases hl
          rw [hfa] at hfx
          cases hfx
        | cons p ps =>
          have hap : a = p := by injection hl
          have ht : t = ps ++ x :: post := by injection hl
          exact ⟨ps, x, post, ht, hfx, fun q hq => hpre q (List.mem_cons_of_mem p hq)⟩

/-- Claim C6: the year extracted from a path is the four characters `20XX`
of the first path segment that starts with `20` and two digits (a segment
carrying `20XX` only in a non-initial position never matches), and when no
segment matches, an item without a metadata date is skipped with
"no year in path" by both classifiers. -/
theorem year_extraction (vexts iexts skl : List String) (vc : FileCtx)
    (info : ProbeInfo) (ic : ImgCtx)
    (hve : vexts.contains (extOf vc.fileName) = true)
    (hvs : should_skip_by_partial_match vc.filePath skl = false)
    (hprobe : vc.probe = some info)
    (hmeta : pyTruthy (get_creation_time_from_metadata info) = false)
    (hie : iexts.contains (extOf ic.fileName) = true)
    (his : should_skip_by_partial_match ic.filePath skl = false)
    (hexif : pyTruthy ic.exifDateTaken = false) :
    (∀ part y, yearPrefix part = some y ↔
      ∃ c d rest, part.toList = '2' :: '0' :: c :: d :: rest ∧
        c.isDigit = true ∧ d.isDigit = true ∧ y = String.mk ['2', '0', c, d]) ∧
    (∀ path y, extract_year_from_path path = some y ↔
      ∃ pre seg post, splitPathParts path = pre ++ seg :: post ∧
        yearPrefix seg = some y ∧ ∀ p ∈ pre, yearPrefix p = none) ∧
    (extract_year_from_path vc.filePath = none →
      evaluateVideoFile vexts skl vc = mkSkip vc.filePath "no year in path") ∧
    (extract_year_from_path ic.filePath = none →
      evaluateImageFile iexts skl ic = mkSkip ic.filePath "no year in path") := by
  refine ⟨?_, ?_, ?_, ?_⟩
  · intro part y
    unfold yearPrefix
    constructor
    · intro h
      split at h
      · rename_i c d rest heq
        split at h
        · rename_i hdig
          injection h with h
          simp at hdig
          exact ⟨c, d, rest, heq, hdig.1, hdig.2, h.symm⟩
        · cases h
      · cases h
    · rintro ⟨c, d, rest, heq, hc, hd, hy⟩
      split
      · rename_i c' d' rest' heq'
        rw [heq] at heq'
        injection heq' with h1 h2
        injection h2 with h2 h3
        injection h3 with h3 h4
        injection h4 with h4 h5
        subst h3
        subst h4
        simp [hc, hd, hy]
      · rename_i hno
        exact absurd heq (hno c d rest)
  · intro path y
    exact findSome?_first_match yearPrefix (splitPathParts path) y
  · intro hnone
    exact evaluateVideoFile_eq_skip_date vexts skl vc info _ hve hvs hprobe
      (resolveCreationTime_no_meta_no_year vc _ hmeta hnone)
  · intro hnone
    rw [evaluateImageFile_no_exif iexts skl ic hie his hexif, hnone]

/-- Sample context: video with no metadata date and no year in its path. -/
def noYearCtx : FileCtx :=
  { filePath := "/data/clips/wa.mp4", fileName := "wa.mp4",
    probe := some { streams := [vH264, aAac] },
    modYearLocal := 2018, mtimeIsoUtc := "2018-08-03T10:00:00Z" }

/-- Sample image context: no EXIF date and no year in the path. -/
def noYearImgCtx : ImgCtx :=
  { filePath := "/data/clips/a.jpg", fileName := "a.jpg",
    exifDateTaken := none, modYearLocal := 2018 }

/-- Witness for C6: the year of a sample path, a non-initial `20XX` segment
not matching, and the "no year in path" skips at concrete contexts. -/
theorem year_extraction_witness :
    yearPrefix "2018-07 trip" = some "2018" ∧
    yearPrefix "IMG2018" = none ∧
    extract_year_from_path "/data/2018/wa.mp4" = some "2018" ∧
    evaluateVideoFile ["mkv", "mp4", "mov"] ["Trash"] noYearCtx
      = mkSkip noYearCtx.filePath "no year in path" ∧
    evaluateImageFile ["jpg", "jpeg"] ["Trash"] noYearImgCtx
      = mkSkip noYearImgCtx.filePath "no year in path" := by
  have h := year_extraction ["mkv", "mp4", "mov"] ["jpg", "jpeg"] ["Trash"] noYearCtx
    { streams := [vH264, aAac] } noYearImgCtx (by decide) (by decide) rfl (by decide)
    (by decide) (by decide) (by decide)
  refine ⟨?_, by decide, ?_, h.2.2.1 (by decide), h.2.2.2 (by decide)⟩
  · exact (h.1 "2018-07 trip" "2018").mpr ⟨'1', '8', "-07 trip".toList, rfl, rfl, rfl, rfl⟩
  · exact (h.2.1 "/data/2018/wa.mp4" "2018").mpr
      ⟨["", "data"], "2018", ["wa.mp4"], rfl, by decide, by decide⟩

/-- Reason string as the specification words it (spec-side definition, for
comparison with the code's output): the qualifying tokens in the fixed order
"video codec", "HDR to SDR", "audio codec", "container", joined with "+" and
prefixed "convert: "; the bare string "convert" when no token qualifies. -/
def specConvertReason (videoTok hdrTok audioTok containerTok : Bool) : String :=
  let tokens :=
    (if videoTok then ["video codec"] else [])
      ++ (if hdrTok then ["HDR to SDR"] else [])
      ++ (if audioTok then ["audio codec"] else [])
      ++ (if containerTok then ["container"] else [])
  if tokens.isEmpty then "convert" else "convert: " ++ String.intercalate "+" tokens

/-- Claim C3: for a convert decision (with at most one video and one audio
stream, as the data model assumes), the reason equals the spec's composition:
"video codec" iff the video stream is non-hvc1 (i.e. needs re-encode not
solely for HDR), then "HDR to SDR" iff it is HDR, then "audio codec" iff the
audio stream is non-aac, then "container" iff the extension is not mov. -/
theorem convert_reason_composition (exts skl : List String) (ctx : FileCtx) (info : ProbeInfo)
    (vOpt aOpt : Option StreamInfo)
    (hfv : info.streams.filter isVideoType = vOpt.toList)
    (hfa : info.streams.filter isAudioType = aOpt.toList)
    (hext : exts.contains (extOf ctx.fileName) = true)
    (hskl : should_skip_by_partial_match ctx.filePath skl = false)
    (hprobe : ctx.probe = some info)
    (hconv : (evaluateVideoFile exts skl ctx).action = some "convert") :
    (evaluateVideoFile exts skl ctx).reason =
      some (specConvertReason
        (match vOpt with | some v => !isHvc1 v | none => false)
        (match vOpt with | some v => is_hdr_stream v | none => false)
        (match aOpt with | some a => !(a.codec_name == some "aac") | none => false)
        (extOf ctx.fileName != "mov")) := by
  cases hres : resolveCreationTime ctx (get_creation_time_from_metadata info) with
  | error r =>
    rw [evaluateVideoFile_eq_skip_date exts skl ctx info r hext hskl hprobe hres] at hconv
    simp [mkSkip] at hconv
  | ok ct =>
    rw [evaluateVideoFile_eq_finish exts skl ctx info ct hext hskl hprobe hres] at hconv ⊢
    unfold finishVideo at hconv ⊢
    split at hconv
    · simp at hconv
    · rename_i hcond
      rw [if_neg hcond]
      simp only [computeFlags_vcn, computeFlags_acn, computeFlags_hdr, computeFlags_vr,
        computeFlags_ar, computeFlags_hr, computeFlags_container, computeFlags_cr,
        ← List.any_filter, hfv, hfa]
      cases vOpt with
      | none =>
        cases aOpt with
        | none =>
          by_cases hc : extOf ctx.fileName != "mov" <;> simp [specConvertReason, hc]
        | some a =>
          by_cases ha : a.codec_name == some "aac" <;>
            by_cases hc : extOf ctx.fileName != "mov" <;>
              simp [specConvertReason, ha, hc]
      | some v =>
        cases aOpt with
        | none =>
          by_cases h1 : isHvc1 v <;> by_cases h2 : is_hdr_stream v <;>
            by_cases hc : extOf ctx.fileName != "mov" <;>
              simp [specConvertReason, h1, h2, hc]
        | some a =>
          by_cases h1 : isHvc1 v <;> by_cases h2 : is_hdr_stream v <;>
            by_cases ha : a.codec_name == some "aac" <;>
              by_cases hc : extOf ctx.fileName != "mov" <;>
                simp [specConvertReason, h1, h2, ha, hc]

/-- Sample context needing all four conversions: HDR h264 video, mp3 audio,
mkv container. -/
def allFourCtx : FileCtx :=
  { filePath := "/data/2018/a.mkv", fileName := "a.mkv",
    probe := some { format_tags := [("creation_time", "2018-07-17T14:22:10Z")],
                    streams := [vH264Hdr, aMp3] },
    modYearLocal := 2018, mtimeIsoUtc := "2018-08-03T10:00:00Z" }

/-- Witness for C3: with all four tokens qualifying the reason is exactly
"convert: video codec+HDR to SDR+audio codec+container". -/
theorem convert_reason_composition_witness :
    (evaluateVideoFile ["mkv", "mp4", "mov"] ["Trash"] allFourCtx).reason
      = some "convert: video codec+HDR to SDR+audio codec+container" := by
  rw [convert_reason_composition ["mkv", "mp4", "mov"] ["Trash"] allFourCtx
    { format_tags := [("creation_time", "2018-07-17T14:22:10Z")], streams := [vH264Hdr, aMp3] }
    (some vH264Hdr) (some aMp3) (by decide) (by decide) (by decide) (by decide) rfl (by decide)]
  decide

/-! ### Characterizing the duplicate matcher -/

/-- Marking a small entry leaves its hash untouched. -/
theorem updSmall_phash (b s : DupeEntry) : (updSmall b s).phash = s.phash := by
  unfold updSmall
  split <;> rfl

/-- Matching only looks at hashes, so marked small entries match as the
original ones do. -/
theorem pairMatches_updSmall (b b' s : DupeEntry) :
    pairMatches b (updSmall b' s) = pairMatches b s := by
  unfold pairMatches
  rw [updSmall_phash]

/-- Matching only looks at hashes, so a marked big entry matches as the
original does. -/
theorem pairMatches_markBig (b s : DupeEntry) :
    pairMatches { b with dupe_type := "dupe_big" } s = pairMatches b s := rfl

/-- Marking a small entry for a marked big is marking it for the original
big. -/
theorem updSmall_markBig (b s : DupeEntry) :
    updSmall { b with dupe_type := "dupe_big" } s = updSmall b s := by
  unfold updSmall
  rw [pairMatches_markBig]

/-- Re-marking a small entry overwrites any earlier marking. -/
theorem updSmall_overwrite (b s : DupeEntry) (x y : String) :
    ({ updSmall b s with dupe_type := x, dupe_of := y } : DupeEntry)
      = { s with dupe_type := x, dupe_of := y } := by
  unfold updSmall
  split <;> rfl

/-- The inner loop updates each small entry independently. -/
theorem innerLoop_smalls (b : DupeEntry) (smalls : List DupeEntry) :
    (innerLoop b smalls).2 = smalls.map (updSmall b) := by
  induction smalls generalizing b with
  | nil => rfl
  | cons s rest ih =>
    unfold innerLoop
    by_cases hm : pairMatches b s
    · simp only [hm, if_pos]
      show ({ s with dupe_type := "dupe_small", dupe_of := b.file } : DupeEntry)
          :: (innerLoop { b with dupe_type := "dupe_big" } rest).2
        = updSmall b s :: rest.map (updSmall b)
      rw [ih, show updSmall b s = { s with dupe_type := "dupe_small", dupe_of := b.file } from by
        unfold updSmall; rw [if_pos hm]]
      exact congrArg _ (List.map_congr_left fun s' _ => updSmall_markBig b s')
    · simp only [hm, if_neg]
      show s :: (innerLoop b rest).2 = updSmall b s :: rest.map (updSmall b)
      rw [ih, show updSmall b s = s from by unfold updSmall; rw [if_neg hm]]

/-- The inner loop marks the big entry exactly when some small entry
matches it. -/
theorem innerLoop_big (b : DupeEntry) (smalls : List DupeEntry) :
    (innerLoop b smalls).1 =
      if smalls.any (fun s => pairMatches b s) then { b with dupe_type := "dupe_big" } else b := by
  induction smalls generalizing b with
  | nil => rfl
  | cons s rest ih =>
    unfold innerLoop
    by_cases hm : pairMatches b s
    · simp only [hm, if_pos]
      show (innerLoop { b with dupe_type := "dupe_big" } rest).1 = _
      rw [ih]
      simp only [pairMatches_markBig]
      rw [List.any_cons, hm, Bool.true_or, if_pos rfl]
      split <;> rfl
    · simp only [hm, if_neg]
      show (innerLoop b rest).1 = _
      rw [ih, List.any_cons]
      simp [hm]

/-- The whole outer loop, big side: each big entry is marked `dupe_big`
exactly when some small entry of the folder matches it; big entries never
affect each other. -/
theorem matchAll_bigs_map (bigs smalls : List DupeEntry) :
    (matchAll bigs smalls).1 =
      bigs.map fun b =>
        if smalls.any (fun s => pairMatches b s) then { b with dupe_type := "dupe_big" } else b := by
  induction bigs generalizing smalls with
  | nil => rfl
  | cons b bs ih =>
    unfold matchAll
    show (innerLoop b smalls).1 :: (matchAll bs (innerLoop b smalls).2).1 = _
    rw [innerLoop_big, ih, innerLoop_smalls, List.map_cons]
    congr 1
    refine List.map_congr_left fun b' _ => ?_
    rw [List.any_map]
    have : (fun s => pairMatches b' s) ∘ updSmall b = fun s => pairMatches b' s := by
      funext s
      exact pairMatches_updSmall b' b s
    rw [this]

/-- Folding all bigs over one small entry: the last matching big wins, a
non-matching fold leaves the entry untouched. -/
theorem foldl_updSmall (bigs : List DupeEntry) (s : DupeEntry) :
    bigs.foldl (fun acc b => updSmall b acc) s =
      match (bigs.filter fun b => pairMatches b s).getLast? with
      | some b => { s with dupe_type := "dupe_small", dupe_of := b.file }
      | none => s := by
  induction bigs generalizing s with
  | nil => rfl
  | cons b bs ih =>
    rw [List.foldl_cons, ih (updSmall b s)]
    simp only [pairMatches_updSmall, updSmall_overwrite]
    by_cases hm : pairMatches b s
    · rw [show (b :: bs).filter (fun b' => pairMatches b' s) =
          b :: bs.filter (fun b' => pairMatches b' s) from by simp [hm]]
      cases hfl : bs.filter (fun b' => pairMatches b' s) with
      | nil =>
        simp only [List.getLast?, updSmall]
        rw [if_pos hm]
        rfl
      | cons c t =>
        rw [getLast?_cons_cons]
        cases hbt : (c :: t).getLast? with
        | none => simp [List.getLast?] at hbt
        | some u => rfl
    · rw [show (b :: bs).filter (fun b' => pairMatches b' s) =
          bs.filter (fun b' => pairMatches b' s) from by simp [hm]]
      cases hfl : bs.filter (fun b' => pairMatches b' s) with
      | nil =>
        simp only [List.getLast?]
        rw [show updSmall b s = s from by unfold updSmall; rw [if_neg hm]]
      | cons c t => rfl

/-- The whole outer loop, small side: each small entry is marked `dupe_small`
with `dupe_of` the last matching big's path; small entries never affect each
other. -/
theorem matchAll_smalls_map (bigs smalls : List DupeEntry) :
    (matchAll bigs smalls).2 =
      smalls.map fun s =>
        match (bigs.filter fun b => pairMatches b s).getLast? with
        | some b => { s with dupe_type := "dupe_small", dupe_of := b.file }
        | none => s := by
  have h : (matchAll bigs smalls).2
      = smalls.map fun s => bigs.foldl (fun acc b => updSmall b acc) s := by
    induction bigs generalizing smalls with
    | nil => simp [matchAll]
    | cons b bs ih =>
      unfold matchAll
      show (matchAll bs (innerLoop b smalls).2).2 = _
      rw [ih, innerLoop_smalls, List.map_map]
      rfl
  rw [h]
  exact List.map_congr_left fun s _ => foldl_updSmall bigs s

/-- Claim C7: within a folder-scoped batch the matcher compares only
big×small cross-pool pairs, and a pair counts only when both hashes are
non-null and their Hamming distance is at most 5 (inclusive); each big entry
is marked `dupe_big` exactly when some small entry matches it, each small
entry is marked `dupe_small` with `dupe_of` the last matching big's path
(later matching bigs overwrite earlier ones), and entries of non-matching
pairs are returned untouched. -/
theorem duplicate_matching (bigs smalls : List DupeEntry) :
    (∀ b s : DupeEntry, pairMatches b s = true ↔
      ∃ bh sh, b.phash = some bh ∧ s.phash = some sh ∧ hammingDist bh sh ≤ 5) ∧
    (matchAll bigs smalls).1 = (bigs.map fun b =>
      if smalls.any (fun s => pairMatches b s) then { b with dupe_type := "dupe_big" }
      else b) ∧
    (matchAll bigs smalls).2 = (smalls.map fun s =>
      match (bigs.filter fun b => pairMatches b s).getLast? with
      | some b => { s with dupe_type := "dupe_small", dupe_of := b.file }
      | none => s) := by
  refine ⟨?_, matchAll_bigs_map bigs smalls, matchAll_smalls_map bigs smalls⟩
  intro b s
  unfold pairMatches
  cases hb : b.phash with
  | none => simp
  | some bh =>
    cases hs : s.phash with
    | none => simp
    | some sh => simp

/-! ### Row accounting (claim C8) -/

/-- A big entry with no hash matches nothing. -/
theorem pairMatches_none_left (b s : DupeEntry) (h : b.phash = none) :
    pairMatches b s = false := by
  unfold pairMatches
  rw [h]

/-- A small entry with no hash matches nothing. -/
theorem pairMatches_none_right (b s : DupeEntry) (h : s.phash = none) :
    pairMatches b s = false := by
  unfold pairMatches
  rw [h]
  cases b.phash <;> rfl

/-- Pool construction emits one entry per successfully stat-ed file. -/
theorem pools_length (gs : String → Option Nat) (ph : String → Option (List Bool))
    (fp : String) (ns : List String) (acc : List DupeEntry × List DupeEntry) :
    (ns.foldl (poolStep gs ph fp) acc).1.length + (ns.foldl (poolStep gs ph fp) acc).2.length
      = acc.1.length + acc.2.length
        + (ns.filter fun n => (gs (fp ++ "/" ++ n)).isSome).length := by
  induction ns generalizing acc with
  | nil => simp
  | cons n t ih =>
    rw [List.foldl_cons]
    cases hg : gs (fp ++ "/" ++ n) with
    | none =>
      rw [show poolStep gs ph fp acc n = acc from by simp [poolStep, hg], ih,
        show (n :: t).filter (fun n => (gs (fp ++ "/" ++ n)).isSome)
          = t.filter (fun n => (gs (fp ++ "/" ++ n)).isSome) from by simp [hg]]
    | some sz =>
      rw [show (n :: t).filter (fun n => (gs (fp ++ "/" ++ n)).isSome)
        = n :: t.filter (fun n => (gs (fp ++ "/" ++ n)).isSome) from by simp [hg]]
      by_cases hsz : sz ≥ SIZE_THRESHOLD_BYTES
      · rw [show poolStep gs ph fp acc n
            = (acc.1 ++ [{ file := fp ++ "/" ++ n, size := sz, phash := ph (fp ++ "/" ++ n) }],
               acc.2) from by simp [poolStep, hg, hsz], ih]
        simp only [List.length_append, List.length_cons, List.length_nil]
        omega
      · rw [show poolStep gs ph fp acc n
            = (acc.1,
               acc.2 ++ [{ file := fp ++ "/" ++ n, size := sz, phash := ph (fp ++ "/" ++ n) }])
            from by simp [poolStep, hg, hsz], ih]
        simp only [List.length_append, List.length_cons, List.length_nil]
        omega

/-- Members of the built pools (beyond the accumulator) carry blank dupe
fields. -/
theorem pools_mem_blank (gs : String → Option Nat) (ph : String → Option (List Bool))
    (fp : String) (ns : List String) (acc : List DupeEntry × List DupeEntry) :
    (∀ e ∈ (ns.foldl (poolStep gs ph fp) acc).1,
      e ∈ acc.1 ∨ (e.dupe_type = "" ∧ e.dupe_of = "")) ∧
    (∀ e ∈ (ns.foldl (poolStep gs ph fp) acc).2,
      e ∈ acc.2 ∨ (e.dupe_type = "" ∧ e.dupe_of = "")) := by
  induction ns generalizing acc with
  | nil => exact ⟨fun e he => Or.inl he, fun e he => Or.inl he⟩
  | cons n t ih =>
    rw [List.foldl_cons]
    refine ⟨fun e he => ?_, fun e he => ?_⟩
    · rcases (ih (poolStep gs ph fp acc n)).1 e he with h | h
      · cases hg : gs (fp ++ "/" ++ n) with
        | none =>
          rw [show poolStep gs ph fp acc n = acc from by simp [poolStep, hg]] at h
          exact Or.inl h
        | some sz =>
          by_cases hsz : sz ≥ SIZE_THRESHOLD_BYTES
          · rw [show poolStep gs ph fp acc n
              = (acc.1 ++ [{ file := fp ++ "/" ++ n, size := sz,
                             phash := ph (fp ++ "/" ++ n) }], acc.2)
              from by simp [poolStep, hg, hsz]] at h
            rcases List.mem_append.mp h with h | h
            · exact Or.inl h
            · rcases List.mem_singleton.mp h with rfl
              exact Or.inr ⟨rfl, rfl⟩
          · rw [show poolStep gs ph fp acc n
              = (acc.1, acc.2 ++ [{ file := fp ++ "/" ++ n, size := sz,
                                    phash := ph (fp ++ "/" ++ n) }])
              from by simp [poolStep, hg, hsz]] at h
            exact Or.inl h
      · exact Or.inr h
    · rcases (ih (poolStep gs ph fp acc n)).2 e he with h | h
      · cases hg : gs (fp ++ "/" ++ n) with
        | none =>
          rw [show poolStep gs ph fp acc n = acc from by simp [poolStep, hg]] at h
          exact Or.inl h
        | some sz =>
          by_cases hsz : sz ≥ SIZE_THRESHOLD_BYTES
          · rw [show poolStep gs ph fp acc n
              = (acc.1 ++ [{ file := fp ++ "/" ++ n, size := sz,
                             phash := ph (fp ++ "/" ++ n) }], acc.2)
              from by simp [poolStep, hg, hsz]] at h
            exact Or.inl h
          · rw [show poolStep gs ph fp acc n
              = (acc.1, acc.2 ++ [{ file := fp ++ "/" ++ n, size := sz,
                                    phash := ph (fp ++ "/" ++ n) }])
              from by simp [poolStep, hg, hsz]] at h
            rcases List.mem_append.mp h with h | h
            · exact Or.inl h
            · rcases List.mem_singleton.mp h with rfl
              exact Or.inr ⟨rfl, rfl⟩
      · exact Or.inr h

/-- The matcher returns exactly the pools' entries (updated in place). -/
theorem matchAll_length (bigs smalls : List DupeEntry) :
    (matchAll bigs smalls).1.length = bigs.length ∧
    (matchAll bigs smalls).2.length = smalls.length := by
  rw [matchAll_bigs_map, matchAll_smalls_map]
  exact ⟨List.length_map _ _, List.length_map _ _⟩

/-- One folder scan emits exactly one row per successfully stat-ed file. -/
theorem evaluate_folder_length (gs : String → Option Nat) (ph : String → Option (List Bool))
    (fp : String) (ns : List String) :
    (evaluate_folder gs ph fp ns).length
      = (ns.filter fun n => (gs (fp ++ "/" ++ n)).isSome).length := by
  unfold evaluate_folder
  rw [List.length_append, (matchAll_length _ _).1, (matchAll_length _ _).2]
  have h := pools_length gs ph fp ns ([], [])
  simpa using h

/-- Counterexample to claim C8 as stated: a duplicate-scan input file whose
size stat fails produces no output row at all (the run still completes, but
the row is silently omitted rather than emitted with blank fields). -/
theorem one_row_per_file_counterexample :
    (["a.jpg"] : List String).length = 1 ∧
    (evaluate_folder (fun _ => none) (fun _ => none) "/f" ["a.jpg"]).length = 0 :=
  ⟨rfl, rfl⟩

/-- Claim C8 as amended: every run completes with one output row per input
file — except that the duplicate scanner silently omits files whose size
stat raises; the video crawl emits a row for every file, the duplicate scan
emits a row for exactly the stat-able files, and a row whose hash failed
(null hash) is still emitted with blank dupe fields. -/
theorem one_row_per_file (vexts skl : List String) (files : List FileCtx)
    (gs : String → Option Nat) (ph : String → Option (List Bool))
    (fp : String) (ns : List String) :
    (crawlVideos vexts skl files).length = files.length ∧
    (evaluate_folder gs ph fp ns).length
      = (ns.filter fun n => (gs (fp ++ "/" ++ n)).isSome).length ∧
    (∀ e ∈ evaluate_folder gs ph fp ns, e.phash = none →
      e.dupe_type = "" ∧ e.dupe_of = "") := by
  refine ⟨List.length_map _ _, evaluate_folder_length gs ph fp ns, ?_⟩
  intro e he hnull
  unfold evaluate_folder at he
  rcases List.mem_append.mp he with hm | hm
  · rw [matchAll_bigs_map] at hm
    rcases List.mem_map.mp hm with ⟨b, hb, hbe⟩
    have hbphash : b.phash = none := by
      by_cases hany : ((ns.foldl (poolStep gs ph fp) ([], [])).2.any
          fun s => pairMatches b s) = true
      · rw [if_pos hany] at hbe
        rw [← hbe] at hnull
        exact hnull
      · rw [if_neg hany] at hbe
        rw [← hbe] at hnull
        exact hnull
    have hfalse : ((ns.foldl (poolStep gs ph fp) ([], [])).2.any fun s => pairMatches b s)
        = false := by
      rw [List.any_eq_false]
      intro s _
      simp [pairMatches_none_left b s hbphash]
    rw [if_neg (by simp [hfalse])] at hbe
    subst hbe
    rcases (pools_mem_blank gs ph fp ns ([], [])).1 b hb with h | h
    · cases h
    · exact h
  · rw [matchAll_smalls_map] at hm
    rcases List.mem_map.mp hm with ⟨s, hs, hse⟩
    have hsphash : s.phash = none := by
      rcases hlast : ((ns.foldl (poolStep gs ph fp) ([], [])).1.filter
          fun b => pairMatches b s).getLast? with _ | b
      · rw [hlast] at hse
        rw [← hse] at hnull
        exact hnull
      · rw [hlast] at hse
        rw [← hse] at hnull
        exact hnull
    have hnil : ((ns.foldl (poolStep gs ph fp) ([], [])).1.filter fun b => pairMatches b s)
        = [] := by
      rw [List.filter_eq_nil_iff]
      intro b _
      simp [pairMatches_none_right b s hsphash]
    rw [hnil] at hse
    simp only [List.getLast?_nil] at hse
    subst hse
    rcases (pools_mem_blank gs ph fp ns ([], [])).2 s hs with h | h
    · cases h
    · exact h

/-- Sample size oracle: one big file, one small file, both hash-failed. -/
def sampleSizes : String → Option Nat :=
  fun p => if p = "/f/big.jpg" then some 921600 else some 51200

/-- Witness for the amended C8 at a concrete folder whose two files both
fail hashing: two rows come out (none omitted), each with blank dupe
fields. -/
theorem one_row_per_file_witness :
    (crawlVideos ["mkv", "mp4", "mov"] ["Trash"] [sampleConvertCtx]).length = 1 ∧
    (evaluate_folder sampleSizes (fun _ => none) "/f" ["big.jpg", "a.jpg"]).length = 2 ∧
    ({ file := "/f/big.jpg", size := 921600, phash := none,
       dupe_type := "", dupe_of := "" } : DupeEntry)
      ∈ evaluate_folder sampleSizes (fun _ => none) "/f" ["big.jpg", "a.jpg"] ∧
    (∀ e ∈ evaluate_folder sampleSizes (fun _ => none) "/f" ["big.jpg", "a.jpg"],
      e.phash = none → e.dupe_type = "" ∧ e.dupe_of = "") := by
  have h := one_row_per_file ["mkv", "mp4", "mov"] ["Trash"] [sampleConvertCtx]
    sampleSizes (fun _ => none) "/f" ["big.jpg", "a.jpg"]
  refine ⟨h.1, ?_, by decide, h.2.2⟩
  rw [h.2.1]
  decide

/-- Claim C10: past the extension, skiplist, probe and date checks, a probe
with no audio stream leaves `audio_codec_needed` at its default true
(reported as 1) and forces a convert action even when video, color and
container are fully compatible; likewise no video stream leaves
`video_codec_needed` true and forces convert. With a fully compatible video
stream, a mov container and no audio stream, no reason token qualifies and
the reason is the bare string "convert". -/
theorem missing_stream_forces_convert (exts skl : List String) (ctx : FileCtx)
    (info : ProbeInfo) (ct : String)
    (hext : exts.contains (extOf ctx.fileName) = true)
    (hskl : should_skip_by_partial_match ctx.filePath skl = false)
    (hprobe : ctx.probe = some info)
    (hres : resolveCreationTime ctx (get_creation_time_from_metadata info) = Except.ok ct) :
    (info.streams.all (fun s => !isAudioType s) = true →
      (evaluateVideoFile exts skl ctx).action = some "convert" ∧
      (evaluateVideoFile exts skl ctx).audio_codec_needed = some 1) ∧
    (info.streams.all (fun s => !isVideoType s) = true →
      (evaluateVideoFile exts skl ctx).action = some "convert" ∧
      (evaluateVideoFile exts skl ctx).video_codec_needed = some 1) ∧
    (info.streams.all (fun s => !isAudioType s) = true →
      info.streams.all (fun s => !isVideoType s || (isHvc1 s && !is_hdr_stream s)) = true →
      extOf ctx.fileName = "mov" →
      (evaluateVideoFile exts skl ctx).reason = some "convert") := by
  rw [evaluateVideoFile_eq_finish exts skl ctx info ct hext hskl hprobe hres]
  set fl := computeFlags (extOf ctx.fileName) info.streams with hfl
  refine ⟨fun hNoA => ?_, fun hNoV => ?_, fun hNoA hCompat hMov => ?_⟩
  · have hacn : fl.audio_codec_needed = true := by
      rw [hfl, computeFlags_acn]
      rw [show (info.streams.any fun s => isAudioType s && s.codec_name == some "aac") = false
        from List.any_eq_false.mpr fun s hs => by
          have := List.all_eq_true.mp hNoA s hs
          simp at this
          simp [this]]
      rfl
    unfold finishVideo
    rw [if_neg (by simp [hacn])]
    exact ⟨rfl, by rw [hacn]; rfl⟩
  · have hvcn : fl.video_codec_needed = true := by
      rw [hfl, computeFlags_vcn]
      rw [show info.streams.filter isVideoType = [] from List.filter_eq_nil_iff.mpr
        fun s hs => by
          have := List.all_eq_true.mp hNoV s hs
          simp at this
          simp [this]]
      rfl
    unfold finishVideo
    rw [if_neg (by simp [hvcn])]
    exact ⟨rfl, by rw [hvcn]; rfl⟩
  · have hacn : fl.audio_codec_needed = true := by
      rw [hfl, computeFlags_acn]
      rw [show (info.streams.any fun s => isAudioType s && s.codec_name == some "aac") = false
        from List.any_eq_false.mpr fun s hs => by
          have := List.all_eq_true.mp hNoA s hs
          simp at this
          simp [this]]
      rfl
    have har : fl.audio_reason = none := by
      rw [hfl, computeFlags_ar]
      rw [if_neg ?_]
      simp only [Bool.not_eq_true]
      exact List.any_eq_false.mpr fun s hs => by
        have := List.all_eq_true.mp hNoA s hs
        simp at this
        simp [this]
    have hvr : fl.video_reason = none := by
      rw [hfl, computeFlags_vr]
      rw [if_neg ?_]
      simp only [Bool.not_eq_true]
      exact List.any_eq_false.mpr fun s hs => by
        have := List.all_eq_true.mp hCompat s hs
        rcases Bool.or_eq_true_iff.mp this with h | h
        · simp at h
          simp [isVideoType] at h ⊢
          intro hv
          exact absurd hv h
        · simp at h
          simp [h.1]
    have hhdr : fl.hdr_to_sdr_needed = false := by
      rw [hfl, computeFlags_hdr]
      exact List.any_eq_false.mpr fun s hs => by
        have := List.all_eq_true.mp hCompat s hs
        rcases Bool.or_eq_true_iff.mp this with h | h
        · simp at h
          simp [isVideoType] at h ⊢
          intro hv
          exact absurd hv h
        · simp at h
          simp [h.2]
    have hcn : fl.container_needed = false := by
      rw [hfl, computeFlags_container, hMov]
      rfl
    unfold finishVideo
    rw [if_neg (by simp [hacn])]
    simp [har, hvr, hhdr, hcn]

/-- Sample context: compatible hvc1 SDR video in a mov container, no audio
stream, metadata creation time present. -/
def noAudioCtx : FileCtx :=
  { filePath := "/data/2018/c.mov", fileName := "c.mov",
    probe := some { format_tags := [("creation_time", "2018-07-17T14:22:10Z")],
                    streams := [vCompat] },
    modYearLocal := 2018, mtimeIsoUtc := "2018-08-03T10:00:00Z" }

/-- Sample context: audio-only probe result in a mov container. -/
def noVideoCtx : FileCtx :=
  { filePath := "/data/2018/d.mov", fileName := "d.mov",
    probe := some { format_tags := [("creation_time", "2018-07-17T14:22:10Z")],
                    streams := [aAac] },
    modYearLocal := 2018, mtimeIsoUtc := "2018-08-03T10:00:00Z" }

/-- Witness for C10 at the fully-compatible-but-no-audio context and the
no-video context. -/
theorem missing_stream_forces_convert_witness :
    (evaluateVideoFile ["mkv", "mp4", "mov"] ["Trash"] noAudioCtx).action = some "convert" ∧
    (evaluateVideoFile ["mkv", "mp4", "mov"] ["Trash"] noAudioCtx).audio_codec_needed
      = some 1 ∧
    (evaluateVideoFile ["mkv", "mp4", "mov"] ["Trash"] noAudioCtx).reason = some "convert" ∧
    (evaluateVideoFile ["mkv", "mp4", "mov"] ["Trash"] noVideoCtx).action = some "convert" ∧
    (evaluateVideoFile ["mkv", "mp4", "mov"] ["Trash"] noVideoCtx).video_codec_needed
      = some 1 := by
  have h1 := missing_stream_forces_convert ["mkv", "mp4", "mov"] ["Trash"] noAudioCtx
    { format_tags := [("creation_time", "2018-07-17T14:22:10Z")], streams := [vCompat] }
    "2018-07-17T14:22:10Z" (by decide) (by decide) rfl rfl
  have h2 := missing_stream_forces_convert ["mkv", "mp4", "mov"] ["Trash"] noVideoCtx
    { format_tags := [("creation_time", "2018-07-17T14:22:10Z")], streams := [aAac] }
    "2018-07-17T14:22:10Z" (by decide) (by decide) rfl rfl
  exact ⟨(h1.1 (by decide)).1, (h1.1 (by decide)).2,
    h1.2.2 (by decide) (by decide) (by decide),
    (h2.2.1 (by decide)).1, (h2.2.1 (by decide)).2⟩

end ICloudReingest
